import Mathlib

/-!
Verification of the HexoSynth node-registry and sample-buffer layer.

The definitions below are a shallow embedding of `src/dsp/mod.rs`,
`src/dsp/node_out.rs` and `src/dsp/satom.rs`:

* the parameter curve families (`define_lin`, `define_exp`, `define_exp4`,
  `n_pit` / `d_pit`) become real-valued functions;
* `ProcBuf` (a raw pointer to a `[f32; 128]` block) becomes an optional
  address into an explicit heap, with reads/writes/frees returning `none`
  exactly where the Rust code would dereference a null/dangling pointer,
  index out of bounds, or double-free;
* the node registry generated by the `node_list` macro (NodeId, ParamId,
  lookup tables, category listing, NodeInfo counts) becomes plain
  inductive types and total functions over them;
* `Out::process` becomes a state-passing function over an audio-context
  record, with `none` marking the panics / out-of-bounds accesses the
  Rust code can hit.

Sample values are modelled as rationals (the code stores `f32` values and
only moves them around; no arithmetic on samples occurs in the embedded
code paths), while the curve math, which uses `log2`/`powf`/`sqrt`, is
modelled over the reals.
-/

namespace HexoSynth

/-! ## Parameter curve families (src/dsp/mod.rs lines 178-222) -/

noncomputable section Curves

/-- `define_lin` normalize: `((x - min) / (max - min)).abs()`. -/
def n_lin (mn mx x : ℝ) : ℝ := |(x - mn) / (mx - mn)|

/-- `define_lin` denormalize: `min * (1 - x) + max * x`. -/
def d_lin (mn mx x : ℝ) : ℝ := mn * (1 - x) + mx * x

/-- `define_exp` normalize: `((x - min) / (max - min)).abs().sqrt()`. -/
def n_exp (mn mx x : ℝ) : ℝ := Real.sqrt |(x - mn) / (mx - mn)|

/-- `define_exp` denormalize: with `y = x * x`, `min * (1 - y) + max * y`. -/
def d_exp (mn mx x : ℝ) : ℝ := mn * (1 - x ^ 2) + mx * x ^ 2

/-- `define_exp4` normalize: `((x - min) / (max - min)).abs().sqrt().sqrt()`. -/
def n_exp4 (mn mx x : ℝ) : ℝ := Real.sqrt (Real.sqrt |(x - mn) / (mx - mn)|)

/-- `define_exp4` denormalize: with `y = x * x * x * x`, `min * (1 - y) + max * y`. -/
def d_exp4 (mn mx x : ℝ) : ℝ := mn * (1 - x ^ 4) + mx * x ^ 4

/-- `n_pit`: `((x.max(0.01) / 440.0).log2() / 10.0)`. -/
def n_pit (x : ℝ) : ℝ := Real.logb 2 (max x 0.01 / 440) / 10

/-- `d_pit`: `let note = x * 10.0; 440.0 * 2.0f32.powf(note)`. -/
def d_pit (x : ℝ) : ℝ := 440 * (2 : ℝ) ^ (x * 10)

end Curves

theorem d_lin_shift (mn mx x : ℝ) (h : mn < mx) :
    (d_lin mn mx x - mn) / (mx - mn) = x := by
  have hne : mx - mn ≠ 0 := sub_ne_zero.mpr h.ne'
  unfold d_lin
  field_simp
  ring

theorem n_lin_d_lin (mn mx x : ℝ) (h : mn < mx) (hx0 : 0 ≤ x) :
    n_lin mn mx (d_lin mn mx x) = x := by
  unfold n_lin
  rw [d_lin_shift mn mx x h, abs_of_nonneg hx0]

theorem n_exp_d_exp (mn mx x : ℝ) (h : mn < mx) (hx0 : 0 ≤ x) :
    n_exp mn mx (d_exp mn mx x) = x := by
  have hd : (d_exp mn mx x - mn) / (mx - mn) = x ^ 2 := by
    have hne : mx - mn ≠ 0 := sub_ne_zero.mpr h.ne'
    unfold d_exp
    field_simp
    ring
  unfold n_exp
  rw [hd, abs_of_nonneg (sq_nonneg x), Real.sqrt_sq hx0]

theorem n_exp4_d_exp4 (mn mx x : ℝ) (h : mn < mx) (hx0 : 0 ≤ x) :
    n_exp4 mn mx (d_exp4 mn mx x) = x := by
  have hd : (d_exp4 mn mx x - mn) / (mx - mn) = x ^ 4 := by
    have hne : mx - mn ≠ 0 := sub_ne_zero.mpr h.ne'
    unfold d_exp4
    field_simp
    ring
  have h4 : (x ^ 4 : ℝ) = (x ^ 2) ^ 2 := by ring
  unfold n_exp4
  rw [hd, abs_of_nonneg (by positivity : (0:ℝ) ≤ x ^ 4), h4,
    Real.sqrt_sq (sq_nonneg x), Real.sqrt_sq hx0]

theorem d_pit_big (p : ℝ) (hp : -1 ≤ p) : (0.01 : ℝ) ≤ d_pit p := by
  have hmono : (2 : ℝ) ^ ((-10 : ℝ)) ≤ (2 : ℝ) ^ (p * 10) := by
    apply Real.rpow_le_rpow_left_iff (by norm_num : (1:ℝ) < 2) |>.mpr
    linarith
  have hval : (2 : ℝ) ^ ((-10 : ℝ)) = 1 / 1024 := by
    have : ((-10 : ℝ)) = ((-10 : ℤ) : ℝ) := by norm_num
    rw [this, Real.rpow_intCast]
    norm_num
  have h2 : (1 : ℝ) / 1024 ≤ (2 : ℝ) ^ (p * 10) := by
    rw [← hval]
    exact hmono
  unfold d_pit
  nlinarith [h2]

theorem n_pit_d_pit (p : ℝ) (hp : -1 ≤ p) : n_pit (d_pit p) = p := by
  have hmax : max (d_pit p) 0.01 = d_pit p :=
    max_eq_left (d_pit_big p hp)
  unfold n_pit
  rw [hmax]
  unfold d_pit
  have h440 : (440 : ℝ) ≠ 0 := by norm_num
  rw [mul_div_cancel_left₀ _ h440,
    Real.logb_rpow (by norm_num : (0:ℝ) < 2) (by norm_num : (2:ℝ) ≠ 1)]
  ring

theorem d_pit_m02 : d_pit (-0.2) = 110 := by
  unfold d_pit
  have h : ((-0.2 : ℝ) * 10) = ((-2 : ℤ) : ℝ) := by norm_num
  rw [h, Real.rpow_intCast]
  norm_num

theorem d_pit_zero : d_pit 0 = 440 := by
  unfold d_pit
  rw [zero_mul, Real.rpow_zero]
  norm_num

theorem d_pit_03 : d_pit 0.3 = 3520 := by
  unfold d_pit
  have h : ((0.3 : ℝ) * 10) = ((3 : ℤ) : ℝ) := by norm_num
  rw [h, Real.rpow_intCast]
  norm_num

/-- C1: for every curve family (linear, exponential, quartic, pitch) with
declared bounds `mn < mx`, and every normalized `n` in `[0,1]` (pitch:
`n ∈ [-1,1]`, the declared range of the `freq` parameter),
`normalize (denormalize n)` is within `1e-4` of `n` (in fact equal over ℝ);
and for the pitch curve `d_pit (-0.2) = 110`, `d_pit 0 = 440`,
`d_pit 0.3 = 3520`, with `n_pit` recovering each input. -/
theorem C1_curve_roundtrip (mn mx x p : ℝ) (hmn : mn < mx)
    (hx0 : 0 ≤ x) (hx1 : x ≤ 1) (hp0 : -1 ≤ p) (hp1 : p ≤ 1) :
    |n_lin mn mx (d_lin mn mx x) - x| ≤ 1 / 10000 ∧
    |n_exp mn mx (d_exp mn mx x) - x| ≤ 1 / 10000 ∧
    |n_exp4 mn mx (d_exp4 mn mx x) - x| ≤ 1 / 10000 ∧
    |n_pit (d_pit p) - p| ≤ 1 / 10000 ∧
    d_pit (-0.2) = 110 ∧ d_pit 0 = 440 ∧ d_pit 0.3 = 3520 ∧
    n_pit 110 = -0.2 ∧ n_pit 440 = 0 ∧ n_pit 3520 = 0.3 := by
  refine ⟨?_, ?_, ?_, ?_, d_pit_m02, d_pit_zero, d_pit_03, ?_, ?_, ?_⟩
  · rw [n_lin_d_lin mn mx x hmn hx0]
    simp
  · rw [n_exp_d_exp mn mx x hmn hx0]
    simp
  · rw [n_exp4_d_exp4 mn mx x hmn hx0]
    simp
  · rw [n_pit_d_pit p hp0]
    simp
  · rw [← d_pit_m02, n_pit_d_pit (-0.2) (by norm_num)]
  · rw [← d_pit_zero, n_pit_d_pit 0 (by norm_num)]
  · rw [← d_pit_03, n_pit_d_pit 0.3 (by norm_num)]

/-- Witness for C1 at the concrete instance `mn = 0`, `mx = 2`,
`x = 1/2`, `p = 1/2` (the declared range of the `gain` parameter). -/
theorem C1_curve_roundtrip_witness :
    |n_lin 0 2 (d_lin 0 2 (1/2)) - 1/2| ≤ 1 / 10000 ∧
    |n_exp 0 2 (d_exp 0 2 (1/2)) - 1/2| ≤ 1 / 10000 ∧
    |n_exp4 0 2 (d_exp4 0 2 (1/2)) - 1/2| ≤ 1 / 10000 ∧
    |n_pit (d_pit (1/2)) - 1/2| ≤ 1 / 10000 ∧
    d_pit (-0.2) = 110 ∧ d_pit 0 = 440 ∧ d_pit 0.3 = 3520 ∧
    n_pit 110 = -0.2 ∧ n_pit 440 = 0 ∧ n_pit 3520 = 0.3 :=
  C1_curve_roundtrip 0 2 (1/2) (1/2) (by norm_num) (by norm_num)
    (by norm_num) (by norm_num) (by norm_num)

/-! ## ProcBuf (src/dsp/mod.rs lines 78-131)

`ProcBuf` wraps a raw `*mut [f32; MAX_BLOCK_SIZE]`.  The pointer is
modelled as `Option Nat` (`none` = `std::ptr::null_mut()`), and the
allocations live in an explicit heap.  Every operation that in Rust
dereferences the pointer returns `none` when the pointer is null or
dangling (a null/dangling dereference, a panic-on-out-of-bounds index,
or a double `Box::from_raw` — all of which abort or are undefined). -/

def MAX_BLOCK_SIZE : Nat := 128

/-- `pub struct ProcBuf(*mut [f32; MAX_BLOCK_SIZE])`. -/
structure ProcBuf where
  ptr : Option Nat
deriving DecidableEq, Repr

/-- The heap of `Box<[f32; MAX_BLOCK_SIZE]>` allocations: `mem a` is the
block stored at address `a` (`none` = not currently allocated), `next`
is the next fresh address. -/
structure Heap where
  mem : Nat → Option (Nat → ℚ)
  next : Nat

def Heap.empty : Heap := ⟨fun _ => none, 0⟩

/-- `ProcBuf::new()`: `Box::into_raw(Box::new([0.0; MAX_BLOCK_SIZE]))` —
allocates a fresh zero-filled block and returns the pointer to it. -/
def ProcBuf.new (h : Heap) : ProcBuf × Heap :=
  (⟨some h.next⟩,
   ⟨fun a => if a = h.next then some (fun _ => 0) else h.mem a, h.next + 1⟩)

/-- `ProcBuf::null()`: `ProcBuf(std::ptr::null_mut())`. -/
def ProcBuf.null : ProcBuf := ⟨none⟩

/-- `ProcBuf::read(idx)`: `unsafe { (*self.0)[idx] }` — `none` models the
null/dangling dereference or the array-index panic. -/
def ProcBuf.read (h : Heap) (b : ProcBuf) (idx : Nat) : Option ℚ :=
  match b.ptr with
  | none => none
  | some a =>
    match h.mem a with
    | none => none
    | some data => if idx < MAX_BLOCK_SIZE then some (data idx) else none

/-- `ProcBuf::write(idx, v)`: `unsafe { (*self.0)[idx] = v }`. -/
def ProcBuf.write (h : Heap) (b : ProcBuf) (idx : Nat) (v : ℚ) : Option Heap :=
  match b.ptr with
  | none => none
  | some a =>
    match h.mem a with
    | none => none
    | some data =>
      if idx < MAX_BLOCK_SIZE then
        some ⟨fun x => if x = a then some (fun j => if j = idx then v else data j)
                       else h.mem x,
              h.next⟩
      else none

/-- `ProcBuf::fill(v)`: `unsafe { (*self.0).fill(v) }`. -/
def ProcBuf.fill (h : Heap) (b : ProcBuf) (v : ℚ) : Option Heap :=
  match b.ptr with
  | none => none
  | some a =>
    match h.mem a with
    | none => none
    | some _ =>
      some ⟨fun x => if x = a then some (fun _ => v) else h.mem x, h.next⟩

/-- `ProcBuf::free()`: `if !self.0.is_null() { drop(Box::from_raw(self.0)) }` —
a no-op on the null sentinel; on a non-null pointer it reclaims the
allocation, and doing so when the allocation is already gone is a double
free (undefined behaviour, modelled as `none`). -/
def ProcBuf.free (h : Heap) (b : ProcBuf) : Option Heap :=
  match b.ptr with
  | none => some h
  | some a =>
    match h.mem a with
    | none => none
    | some _ => some ⟨fun x => if x = a then none else h.mem x, h.next⟩

/-- C2 counterexample: the claim says reads on the `null()` sentinel
succeed and return `0.0` (a shared zero buffer).  In the code `null()`
is `ProcBuf(std::ptr::null_mut())` and `read` dereferences it, so at
index `0 < MAX_BLOCK_SIZE` the read is a null dereference (`none`),
not a successful read of `0.0`; a write fails the same way. -/
theorem C2_null_read_cex :
    ProcBuf.read Heap.empty ProcBuf.null 0 = none ∧
    ProcBuf.write Heap.empty ProcBuf.null 0 1 = none :=
  ⟨rfl, rfl⟩

/-- C2 (amended): `null()` is a null-pointer sentinel with no backing
storage: for every heap and every index, `read` and `write` on it are
invalid null dereferences (modelled as `none`) rather than accesses to a
shared all-zero buffer, and `free` on it is a no-op; callers must check
for null before dereferencing. -/
theorem C2_null_sentinel (h : Heap) (idx : Nat) (v : ℚ) :
    ProcBuf.null.ptr = none ∧
    ProcBuf.read h ProcBuf.null idx = none ∧
    ProcBuf.write h ProcBuf.null idx v = none ∧
    ProcBuf.free h ProcBuf.null = some h :=
  ⟨rfl, rfl, rfl, rfl⟩

/-- C3 counterexample: the claim says `free` is idempotent — freeing an
already-freed buffer is a no-op.  For the buffer allocated by
`ProcBuf::new()` on the empty heap, the first `free` succeeds but the
second `free` of the same handle is a double `Box::from_raw` (undefined
behaviour, modelled as `none`), not a no-op. -/
theorem C3_double_free_cex :
    (ProcBuf.free (ProcBuf.new Heap.empty).2 (ProcBuf.new Heap.empty).1).isSome
      = true ∧
    ((ProcBuf.free (ProcBuf.new Heap.empty).2 (ProcBuf.new Heap.empty).1).bind
      (fun h2 => ProcBuf.free h2 (ProcBuf.new Heap.empty).1)) = none := by
  exact ⟨rfl, rfl⟩

/-- C3 (amended): `free` releases the backing storage exactly once:
on the `null()` sentinel it is a no-op, and on a buffer whose allocation
is live it succeeds, removes exactly that allocation (leaving all other
allocations untouched); but `free` is not idempotent — a second `free`
of the same non-null handle is a double free (undefined behaviour), which
the code does not guard against (it only checks for null). -/
theorem C3_free_once (h : Heap) (b : ProcBuf) (a : Nat)
    (hb : b.ptr = some a) (hl : (h.mem a).isSome = true) :
    ProcBuf.free h ProcBuf.null = some h ∧
    ∃ h2, ProcBuf.free h b = some h2 ∧
      h2.mem a = none ∧
      (∀ x, x ≠ a → h2.mem x = h.mem x) ∧
      ProcBuf.free h2 b = none := by
  obtain ⟨data, hm⟩ := Option.isSome_iff_exists.mp hl
  refine ⟨rfl, ⟨fun x => if x = a then none else h.mem x, h.next⟩, ?_, ?_, ?_, ?_⟩
  · simp only [ProcBuf.free, hb, hm]
  · simp
  · intro x hx
    simp [hx]
  · simp [ProcBuf.free, hb]

/-- Witness for C3 (amended) on the buffer freshly allocated from the
empty heap. -/
theorem C3_free_once_witness :
    ProcBuf.free (ProcBuf.new Heap.empty).2 ProcBuf.null
      = some (ProcBuf.new Heap.empty).2 ∧
    ∃ h2, ProcBuf.free (ProcBuf.new Heap.empty).2 (ProcBuf.new Heap.empty).1
        = some h2 ∧
      h2.mem 0 = none ∧
      (∀ x, x ≠ 0 → h2.mem x = (ProcBuf.new Heap.empty).2.mem x) ∧
      ProcBuf.free h2 (ProcBuf.new Heap.empty).1 = none :=
  C3_free_once (ProcBuf.new Heap.empty).2 (ProcBuf.new Heap.empty).1 0 rfl rfl

/-- C5: on a buffer with live backing storage, `fill v` makes every
in-range `read` return `v`; `write i w` (for `i < MAX_BLOCK_SIZE`) makes
`read i` return `w` and leaves every other in-range index unchanged. -/
theorem C5_fill_write_read (h : Heap) (b : ProcBuf) (a : Nat) (data : Nat → ℚ)
    (v w : ℚ) (i : Nat)
    (hb : b.ptr = some a) (hm : h.mem a = some data) (hi : i < MAX_BLOCK_SIZE) :
    (∃ hf, ProcBuf.fill h b v = some hf ∧
       ∀ k, k < MAX_BLOCK_SIZE → ProcBuf.read hf b k = some v) ∧
    (∃ hw, ProcBuf.write h b i w = some hw ∧
       ProcBuf.read hw b i = some w ∧
       ∀ j, j ≠ i → j < MAX_BLOCK_SIZE →
         ProcBuf.read hw b j = ProcBuf.read h b j) := by
  constructor
  · refine ⟨⟨fun x => if x = a then some (fun _ => v) else h.mem x, h.next⟩,
      ?_, ?_⟩
    · simp only [ProcBuf.fill, hb, hm]
    · intro k hk
      simp [ProcBuf.read, hb, hk]
  · refine ⟨⟨fun x => if x = a
        then some (fun j => if j = i then w else data j)
        else h.mem x, h.next⟩, ?_, ?_, ?_⟩
    · simp only [ProcBuf.write, hb, hm]
      rw [if_pos hi]
    · simp [ProcBuf.read, hb, hi]
    · intro j hj hjlt
      simp [ProcBuf.read, hb, hm, hj, hjlt]

/-- Witness for C5 on the buffer freshly allocated from the empty heap,
with `v = 1`, `w = 2`, `i = 5`. -/
theorem C5_fill_write_read_witness :
    (∃ hf, ProcBuf.fill (ProcBuf.new Heap.empty).2 (ProcBuf.new Heap.empty).1 1
        = some hf ∧
       ∀ k, k < MAX_BLOCK_SIZE →
         ProcBuf.read hf (ProcBuf.new Heap.empty).1 k = some 1) ∧
    (∃ hw, ProcBuf.write (ProcBuf.new Heap.empty).2 (ProcBuf.new Heap.empty).1 5 2
        = some hw ∧
       ProcBuf.read hw (ProcBuf.new Heap.empty).1 5 = some 2 ∧
       ∀ j, j ≠ 5 → j < MAX_BLOCK_SIZE →
         ProcBuf.read hw (ProcBuf.new Heap.empty).1 j =
         ProcBuf.read (ProcBuf.new Heap.empty).2 (ProcBuf.new Heap.empty).1 j) :=
  C5_fill_write_read (ProcBuf.new Heap.empty).2 (ProcBuf.new Heap.empty).1 0
    (fun _ => 0) 1 2 5 rfl rfl (by decide)

/-! ## SAtom (src/dsp/satom.rs)

`MicroSample` carries its 8 samples as a function, `AudioSample` a name
and whether the (shared, possibly unloaded) sample data is present. -/

inductive SAtom where
  | Str (s : String)
  | MicroSample (m : Nat → ℚ)
  | AudioSample (name : String) (loaded : Bool)
  | Setting (i : Int)
  | Param (p : ℚ)

/-- `SAtom::i()`: `Setting` and `Param` project to an integer (the Rust
`as i64` cast on a float truncates toward zero), all other variants
yield `0`. -/
def SAtom.i : SAtom → Int
  | .Setting i => i
  | .Param p => p.floor + (if p < 0 ∧ ¬ p.den = 1 then 1 else 0)
  | _ => 0

/-- `SAtom::f()`: `Setting` and `Param` project to a number, all other
variants yield `0.0`. -/
def SAtom.f : SAtom → ℚ
  | .Setting i => (i : ℚ)
  | .Param p => p
  | _ => 0

/-! ## The node registry (src/dsp/mod.rs, `node_list` macro, lines 243-280)

Declared kinds, in declaration order:
`nop => Nop`,
`amp => Amp` (Signal; params `inp`/`gain`/`att` at 0/1/2, atom `neg_att`
at 3, output `sig`),
`tseq => TSeq` (CV; param `clock` at 0, atom `cmode` at 1, outputs
`trk1..trk6`),
`sin => Sin` (Osc; param `freq` at 0, output `sig`),
`out => Out` (IOUtil; params `ch1`/`ch2` at 0/1, atom `mono` at 2),
`test => Test` (IOUtil; param `f` at 0, atom `s` at 1). -/

inductive NodeId where
  | Nop
  | Amp (inst : Nat)
  | TSeq (inst : Nat)
  | Sin (inst : Nat)
  | Out (inst : Nat)
  | Test (inst : Nat)
deriving DecidableEq, Repr

structure ParamId where
  name : String
  node : NodeId
  idx : Nat
deriving DecidableEq, Repr

/-- `NodeId::to_instance(instance)`. -/
def NodeId.to_instance (n : NodeId) (inst : Nat) : NodeId :=
  match n with
  | .Nop => .Nop
  | .Amp _ => .Amp inst
  | .TSeq _ => .TSeq inst
  | .Sin _ => .Sin inst
  | .Out _ => .Out inst
  | .Test _ => .Test inst

/-- `ParamId::is_atom()`: per kind, the continuous input indices map to
`false`, the atom input indices to `true`, everything else to `false`. -/
def ParamId.is_atom (p : ParamId) : Bool :=
  match p.node with
  | .Nop => false
  | .Amp _ =>
    match p.idx with
    | 0 => false
    | 1 => false
    | 2 => false
    | 3 => true
    | _ => false
  | .TSeq _ =>
    match p.idx with
    | 0 => false
    | 1 => true
    | _ => false
  | .Sin _ =>
    match p.idx with
    | 0 => false
    | _ => false
  | .Out _ =>
    match p.idx with
    | 0 => false
    | 1 => false
    | 2 => true
    | _ => false
  | .Test _ =>
    match p.idx with
    | 0 => false
    | 1 => true
    | _ => false

/-- `ParamId::param_min_max()`: the declared normalized `(min, max)` of
the continuous parameter at this index, `None` otherwise. -/
def ParamId.param_min_max (p : ParamId) : Option (ℚ × ℚ) :=
  match p.node with
  | .Nop => none
  | .Amp _ =>
    match p.idx with
    | 0 => some (-1, 1)
    | 1 => some (0, 1)
    | 2 => some (0, 1)
    | _ => none
  | .TSeq _ =>
    match p.idx with
    | 0 => some (0, 1)
    | _ => none
  | .Sin _ =>
    match p.idx with
    | 0 => some (-1, 1)
    | _ => none
  | .Out _ =>
    match p.idx with
    | 0 => some (-1, 1)
    | 1 => some (-1, 1)
    | _ => none
  | .Test _ =>
    match p.idx with
    | 0 => some (0, 1)
    | _ => none

/-- `ParamId::setting_min_max()`: the declared integer `(min, max)` of
the atom at this index, `None` otherwise. -/
def ParamId.setting_min_max (p : ParamId) : Option (Int × Int) :=
  match p.node with
  | .Nop => none
  | .Amp _ =>
    match p.idx with
    | 3 => some (0, 1)
    | _ => none
  | .TSeq _ =>
    match p.idx with
    | 1 => some (0, 1)
    | _ => none
  | .Sin _ => none
  | .Out _ =>
    match p.idx with
    | 2 => some (0, 1)
    | _ => none
  | .Test _ =>
    match p.idx with
    | 1 => some (0, 10)
    | _ => none

/-- `NodeId::atom_param_by_idx(idx)`: the atom-relative index maps to the
ParamId whose `idx` is the atom's input index. -/
def NodeId.atom_param_by_idx (n : NodeId) (idx : Nat) : Option ParamId :=
  match n with
  | .Nop => none
  | .Amp _ =>
    match idx with
    | 0 => some ⟨"neg_att", n, 3⟩
    | _ => none
  | .TSeq _ =>
    match idx with
    | 0 => some ⟨"cmode", n, 1⟩
    | _ => none
  | .Sin _ => none
  | .Out _ =>
    match idx with
    | 0 => some ⟨"mono", n, 2⟩
    | _ => none
  | .Test _ =>
    match idx with
    | 0 => some ⟨"s", n, 1⟩
    | _ => none

/-- `NodeId::inp_param_by_idx(idx)`: the continuous input index maps to
the ParamId of that parameter. -/
def NodeId.inp_param_by_idx (n : NodeId) (idx : Nat) : Option ParamId :=
  match n with
  | .Nop => none
  | .Amp _ =>
    match idx with
    | 0 => some ⟨"inp", n, 0⟩
    | 1 => some ⟨"gain", n, 1⟩
    | 2 => some ⟨"att", n, 2⟩
    | _ => none
  | .TSeq _ =>
    match idx with
    | 0 => some ⟨"clock", n, 0⟩
    | _ => none
  | .Sin _ =>
    match idx with
    | 0 => some ⟨"freq", n, 0⟩
    | _ => none
  | .Out _ =>
    match idx with
    | 0 => some ⟨"ch1", n, 0⟩
    | 1 => some ⟨"ch2", n, 1⟩
    | _ => none
  | .Test _ =>
    match idx with
    | 0 => some ⟨"f", n, 0⟩
    | _ => none

/-- `NodeId::param_by_idx(idx)`: absolute index over the shared
continuous + atom namespace. -/
def NodeId.param_by_idx (n : NodeId) (idx : Nat) : Option ParamId :=
  match n with
  | .Nop => none
  | .Amp _ =>
    match idx with
    | 0 => some ⟨"inp", n, 0⟩
    | 1 => some ⟨"gain", n, 1⟩
    | 2 => some ⟨"att", n, 2⟩
    | 3 => some ⟨"neg_att", n, 3⟩
    | _ => none
  | .TSeq _ =>
    match idx with
    | 0 => some ⟨"clock", n, 0⟩
    | 1 => some ⟨"cmode", n, 1⟩
    | _ => none
  | .Sin _ =>
    match idx with
    | 0 => some ⟨"freq", n, 0⟩
    | _ => none
  | .Out _ =>
    match idx with
    | 0 => some ⟨"ch1", n, 0⟩
    | 1 => some ⟨"ch2", n, 1⟩
    | 2 => some ⟨"mono", n, 2⟩
    | _ => none
  | .Test _ =>
    match idx with
    | 0 => some ⟨"f", n, 0⟩
    | 1 => some ⟨"s", n, 1⟩
    | _ => none

/-- `NodeId::inp_param(name)`: name lookup over both families. -/
def NodeId.inp_param (n : NodeId) (name : String) : Option ParamId :=
  match n with
  | .Nop => none
  | .Amp _ =>
    if name = "inp" then some ⟨"inp", n, 0⟩
    else if name = "gain" then some ⟨"gain", n, 1⟩
    else if name = "att" then some ⟨"att", n, 2⟩
    else if name = "neg_att" then some ⟨"neg_att", n, 3⟩
    else none
  | .TSeq _ =>
    if name = "clock" then some ⟨"clock", n, 0⟩
    else if name = "cmode" then some ⟨"cmode", n, 1⟩
    else none
  | .Sin _ =>
    if name = "freq" then some ⟨"freq", n, 0⟩
    else none
  | .Out _ =>
    if name = "ch1" then some ⟨"ch1", n, 0⟩
    else if name = "ch2" then some ⟨"ch2", n, 1⟩
    else if name = "mono" then some ⟨"mono", n, 2⟩
    else none
  | .Test _ =>
    if name = "f" then some ⟨"f", n, 0⟩
    else if name = "s" then some ⟨"s", n, 1⟩
    else none

/-- `NodeId::from_str(name)`: unknown names fall through to `Nop`. -/
def NodeId.from_str (name : String) : NodeId :=
  if name = "nop" then .Nop
  else if name = "amp" then .Amp 0
  else if name = "tseq" then .TSeq 0
  else if name = "sin" then .Sin 0
  else if name = "out" then .Out 0
  else if name = "test" then .Test 0
  else .Nop

inductive UICategory where
  | None
  | Osc
  | Mod
  | NtoM
  | Signal
  | CV
  | IOUtil
deriving DecidableEq, Repr

/-- `NodeId::ui_category()` per the `node_list` declarations. -/
def NodeId.ui_category : NodeId → UICategory
  | .Nop => .None
  | .Amp _ => .Signal
  | .TSeq _ => .CV
  | .Sin _ => .Osc
  | .Out _ => .IOUtil
  | .Test _ => .IOUtil

/-- The non-`Nop` kinds in `node_list` declaration order, as `NodeId`
with instance 0 (what `make_cat_lister` iterates over). -/
def node_list_kinds : List NodeId :=
  [.Amp 0, .TSeq 0, .Sin 0, .Out 0, .Test 0]

/-- One step of the `make_cat_lister` expansion: for each declared kind,
`if UICategory::$ui_cat == *self { if skip == 0 { fun(NodeId::$variant(0)); } else { skip -= 1 } }`.
The state is the current `skip` value and the calls to `fun` made so far. -/
def catStep (c : UICategory) (st : Nat × List NodeId) (nid : NodeId) :
    Nat × List NodeId :=
  if nid.ui_category = c then
    if st.1 = 0 then (st.1, st.2 ++ [nid]) else (st.1 - 1, st.2)
  else st

/-- `UICategory::get_node_ids(skip, fun)`: the list of `NodeId`s passed
to `fun`, in call order. -/
def UICategory.get_node_ids (c : UICategory) (skip : Nat) : List NodeId :=
  (node_list_kinds.foldl (catStep c) (skip, [])).2

/-- The declared kinds of category `c`, in declaration order. -/
def category_kinds (c : UICategory) : List NodeId :=
  node_list_kinds.filter (fun n => n.ui_category = c)

/-! ### NodeInfo (the `ni` module and the `NodeInfo` enum) -/

/-- The static name tables `ni::$variant` holds (`inputs`, `atoms`,
`outputs` vectors built by `ni::$variant::new()`). -/
structure NodeMeta where
  inputs : List String
  atoms : List String
  outputs : List String

def niAmp : NodeMeta := ⟨["inp", "gain", "att"], ["neg_att"], ["sig"]⟩

def niTSeq : NodeMeta :=
  ⟨["clock"], ["cmode"], ["trk1", "trk2", "trk3", "trk4", "trk5", "trk6"]⟩

def niSin : NodeMeta := ⟨["freq"], [], ["sig"]⟩

def niOut : NodeMeta := ⟨["ch1", "ch2"], ["mono"], []⟩

def niTest : NodeMeta := ⟨["f"], ["s"], []⟩

inductive NodeInfo where
  | Nop
  | Amp (p : NodeId × NodeMeta)
  | TSeq (p : NodeId × NodeMeta)
  | Sin (p : NodeId × NodeMeta)
  | Out (p : NodeId × NodeMeta)
  | Test (p : NodeId × NodeMeta)

/-- `NodeInfo::from_node_id(nid)`. -/
def NodeInfo.from_node_id : NodeId → NodeInfo
  | .Nop => .Nop
  | .Amp i => .Amp (.Amp i, niAmp)
  | .TSeq i => .TSeq (.TSeq i, niTSeq)
  | .Sin i => .Sin (.Sin i, niSin)
  | .Out i => .Out (.Out i, niOut)
  | .Test i => .Test (.Test i, niTest)

/-- `NodeInfo::in_count()`: `Nop => 0`, otherwise `inputs.len()`. -/
def NodeInfo.in_count : NodeInfo → Nat
  | .Nop => 0
  | .Amp p | .TSeq p | .Sin p | .Out p | .Test p => p.2.inputs.length

/-- `NodeInfo::at_count()`: `Nop => 0`, otherwise `atoms.len()`. -/
def NodeInfo.at_count : NodeInfo → Nat
  | .Nop => 0
  | .Amp p | .TSeq p | .Sin p | .Out p | .Test p => p.2.atoms.length

/-- `NodeInfo::out_count()`: `Nop => 0`, otherwise `outputs.len()`. -/
def NodeInfo.out_count : NodeInfo → Nat
  | .Nop => 0
  | .Amp p | .TSeq p | .Sin p | .Out p | .Test p => p.2.outputs.length

/-! ### Helper predicates over optional lookup results -/

def optAll (o : Option ParamId) (q : ParamId → Bool) : Bool :=
  match o with
  | none => true
  | some p => q p

theorem atom_param_all_is_atom (n : NodeId) (idx : Nat) :
    optAll (NodeId.atom_param_by_idx n idx) (fun p => p.is_atom) = true := by
  cases n <;> rcases idx with _ | _ | _ | _ | idx <;> rfl

theorem inp_param_by_idx_all_not_atom (n : NodeId) (idx : Nat) :
    optAll (NodeId.inp_param_by_idx n idx) (fun p => !p.is_atom) = true := by
  cases n <;> rcases idx with _ | _ | _ | _ | idx <;> rfl

/-- A ParamId carries exactly one of the two range kinds: a setting
range iff it is an atom, a param range iff it is continuous. -/
def rangeKindsOk (p : ParamId) : Bool :=
  (p.setting_min_max.isSome == p.is_atom) &&
  (p.param_min_max.isSome == (!p.is_atom))

theorem param_by_idx_all_ranges (n : NodeId) (idx : Nat) :
    optAll (NodeId.param_by_idx n idx) rangeKindsOk = true := by
  cases n <;> rcases idx with _ | _ | _ | _ | idx <;> rfl

theorem inp_param_by_idx_all_ranges (n : NodeId) (idx : Nat) :
    optAll (NodeId.inp_param_by_idx n idx) rangeKindsOk = true := by
  cases n <;> rcases idx with _ | _ | _ | _ | idx <;> rfl

theorem atom_param_by_idx_all_ranges (n : NodeId) (idx : Nat) :
    optAll (NodeId.atom_param_by_idx n idx) rangeKindsOk = true := by
  cases n <;> rcases idx with _ | _ | _ | _ | idx <;> rfl

theorem inp_param_all_ranges (n : NodeId) (s : String) :
    optAll (NodeId.inp_param n s) rangeKindsOk = true := by
  cases n <;> simp only [NodeId.inp_param] <;> (repeat' split) <;> rfl

/-- C4: a ParamId produced by the atom-only index family
(`atom_param_by_idx`) satisfies `is_atom = true`; one produced by the
continuous-only family (`inp_param_by_idx`) satisfies `is_atom = false`;
and `is_atom` is determined purely by the kind and the `idx` field
(changing the name or the instance number never changes it). -/
theorem C4_is_atom_families (n : NodeId) (idx : Nat) (p : ParamId) :
    (NodeId.atom_param_by_idx n idx = some p → p.is_atom = true) ∧
    (NodeId.inp_param_by_idx n idx = some p → p.is_atom = false) ∧
    (∀ (s : String) (inst : Nat),
      (ParamId.mk s (p.node.to_instance inst) p.idx).is_atom = p.is_atom) := by
  refine ⟨?_, ?_, ?_⟩
  · intro h
    have hall := atom_param_all_is_atom n idx
    rw [h] at hall
    exact hall
  · intro h
    have hall := inp_param_by_idx_all_not_atom n idx
    rw [h] at hall
    have hb : (!p.is_atom) = true := hall
    simpa using hb
  · intro s inst
    obtain ⟨pn, pnode, pidx⟩ := p
    cases pnode <;> rfl

/-- Witness for C4 on the `amp` kind: atom index 0 resolves to the
`neg_att` atom (input index 3, an atom), continuous index 0 resolves to
the `inp` parameter (not an atom). -/
theorem C4_is_atom_families_witness :
    (⟨"neg_att", .Amp 0, 3⟩ : ParamId).is_atom = true ∧
    (⟨"inp", .Amp 0, 0⟩ : ParamId).is_atom = false :=
  ⟨(C4_is_atom_families (.Amp 0) 0 ⟨"neg_att", .Amp 0, 3⟩).1 rfl,
   (C4_is_atom_families (.Amp 0) 0 ⟨"inp", .Amp 0, 0⟩).2.1 rfl⟩

/-- C10: every ParamId produced by one of the NodeId lookup methods
(`param_by_idx`, `inp_param_by_idx`, `atom_param_by_idx`, `inp_param`)
has a setting range iff it is an atom, and a param range iff it is
continuous. -/
theorem C10_lookup_range_kinds (n : NodeId) (idx : Nat) (s : String)
    (p : ParamId)
    (h : NodeId.param_by_idx n idx = some p ∨
         NodeId.inp_param_by_idx n idx = some p ∨
         NodeId.atom_param_by_idx n idx = some p ∨
         NodeId.inp_param n s = some p) :
    (p.setting_min_max.isSome = true ↔ p.is_atom = true) ∧
    (p.param_min_max.isSome = true ↔ p.is_atom = false) := by
  have hp : rangeKindsOk p = true := by
    rcases h with h | h | h | h
    · have hall := param_by_idx_all_ranges n idx
      rw [h] at hall
      exact hall
    · have hall := inp_param_by_idx_all_ranges n idx
      rw [h] at hall
      exact hall
    · have hall := atom_param_by_idx_all_ranges n idx
      rw [h] at hall
      exact hall
    · have hall := inp_param_all_ranges n s
      rw [h] at hall
      exact hall
  simp only [rangeKindsOk, Bool.and_eq_true, beq_iff_eq] at hp
  obtain ⟨h1, h2⟩ := hp
  constructor
  · rw [h1]
  · rw [h2]
    cases hb : p.is_atom <;> simp

/-- Witness for C10 on the `out` kind: absolute index 2 resolves to the
`mono` atom, which carries a setting range and no param range. -/
theorem C10_lookup_range_kinds_witness :
    ((⟨"mono", .Out 0, 2⟩ : ParamId).setting_min_max.isSome = true ↔
      (⟨"mono", .Out 0, 2⟩ : ParamId).is_atom = true) ∧
    ((⟨"mono", .Out 0, 2⟩ : ParamId).param_min_max.isSome = true ↔
      (⟨"mono", .Out 0, 2⟩ : ParamId).is_atom = false) :=
  C10_lookup_range_kinds (.Out 0) 2 "mono" ⟨"mono", .Out 0, 2⟩ (Or.inl rfl)

/-- C7: `NodeId::from_str` maps every string that is not a declared kind
name to the no-op kind `Nop`, and the no-op kind's NodeInfo reports zero
inputs, outputs and atoms. -/
theorem C7_from_str_unknown (s : String)
    (h : ¬ (s = "nop" ∨ s = "amp" ∨ s = "tseq" ∨ s = "sin" ∨
            s = "out" ∨ s = "test")) :
    NodeId.from_str s = NodeId.Nop ∧
    (NodeInfo.from_node_id NodeId.Nop).in_count = 0 ∧
    (NodeInfo.from_node_id NodeId.Nop).out_count = 0 ∧
    (NodeInfo.from_node_id NodeId.Nop).at_count = 0 := by
  push_neg at h
  obtain ⟨h1, h2, h3, h4, h5, h6⟩ := h
  exact ⟨by simp [NodeId.from_str, h1, h2, h3, h4, h5, h6], rfl, rfl, rfl⟩

/-- Witness for C7 at the concrete unknown name `"xyz"`. -/
theorem C7_from_str_unknown_witness :
    NodeId.from_str "xyz" = NodeId.Nop ∧
    (NodeInfo.from_node_id NodeId.Nop).in_count = 0 ∧
    (NodeInfo.from_node_id NodeId.Nop).out_count = 0 ∧
    (NodeInfo.from_node_id NodeId.Nop).at_count = 0 :=
  C7_from_str_unknown "xyz" (by decide)

theorem foldl_catStep (c : UICategory) :
    ∀ (l : List NodeId) (skip : Nat) (acc : List NodeId),
      l.foldl (catStep c) (skip, acc) =
        (skip - (l.filter (fun n => n.ui_category = c)).length,
         acc ++ (l.filter (fun n => n.ui_category = c)).drop skip) := by
  intro l
  induction l with
  | nil =>
    intro skip acc
    simp
  | cons x xs ih =>
    intro skip acc
    by_cases hx : x.ui_category = c
    · rcases skip with _ | s
      · simp [catStep, hx, List.filter_cons, ih]
      · simp [catStep, hx, List.filter_cons, ih, Nat.succ_sub_succ]
    · simp [catStep, hx, List.filter_cons, ih]

theorem get_node_ids_eq_drop (c : UICategory) (skip : Nat) :
    UICategory.get_node_ids c skip = (category_kinds c).drop skip := by
  unfold UICategory.get_node_ids category_kinds
  rw [foldl_catStep c node_list_kinds skip []]
  simp

theorem head_of_drop (l : List NodeId) (n : Nat) :
    (l.drop n).head? = l[n]? := by
  induction l generalizing n with
  | nil => simp
  | cons x xs ih =>
    cases n with
    | zero => simp
    | succ m => simp [ih]

/-- C8: if at least `skip + 1` declared kinds have category `c`, then
`UICategory::get_node_ids(skip, fun)` invokes `fun` with the
`skip`-th kind of category `c` in declaration order (instance 0) —
indeed that kind is the first invocation of `fun`. -/
theorem C8_get_node_ids_nth (c : UICategory) (skip : Nat) (k : NodeId)
    (h : (category_kinds c)[skip]? = some k) :
    (UICategory.get_node_ids c skip).head? = some k ∧
    k ∈ UICategory.get_node_ids c skip := by
  have hd : (UICategory.get_node_ids c skip).head? = some k := by
    rw [get_node_ids_eq_drop, head_of_drop]
    exact h
  refine ⟨hd, ?_⟩
  cases hl : UICategory.get_node_ids c skip with
  | nil => rw [hl] at hd; simp at hd
  | cons a t =>
    rw [hl] at hd
    simp only [List.head?_cons, Option.some.injEq] at hd
    subst hd
    exact List.mem_cons_self a t

/-- Witness for C8: the second (`skip = 1`) kind of category `IOUtil`
in declaration order is `test`. -/
theorem C8_get_node_ids_nth_witness :
    (UICategory.get_node_ids .IOUtil 1).head? = some (.Test 0) ∧
    (.Test 0) ∈ UICategory.get_node_ids .IOUtil 1 :=
  C8_get_node_ids_nth .IOUtil 1 (.Test 0) (by decide)

/-! ## Out::process (src/dsp/node_out.rs lines 53-76)

Input `ProcBuf`s are passed to `process` with live backing storage; here
they appear as their contents (`Nat → ℚ`), with reads bounds-checked
against `MAX_BLOCK_SIZE` exactly like the `[f32; 128]` index in Rust.
The host audio context supplies `nframes()` and the physical output
channels written through `ctx.output(channel, frame, value)`. -/

/-- `ProcBuf::read(idx)` on a live buffer: in bounds iff
`idx < MAX_BLOCK_SIZE`. -/
def bufRead (b : Nat → ℚ) (idx : Nat) : Option ℚ :=
  if idx < MAX_BLOCK_SIZE then some (b idx) else none

/-- A buffer read whose index is computed by `usize` arithmetic:
the index is an integer, and a negative value is the underflow panic
(`nframes() - 1` with `nframes() = 0`). -/
def bufReadI (b : Nat → ℚ) (idx : Int) : Option ℚ :=
  if 0 ≤ idx ∧ idx < (MAX_BLOCK_SIZE : Int) then some (b idx.toNat) else none

/-- The physical output channels of the host audio context. -/
structure AudioCtx where
  outs : Nat → Nat → ℚ

/-- `ctx.output(ch, frame, v)`. -/
def AudioCtx.output (ctx : AudioCtx) (ch frame : Nat) (v : ℚ) : AudioCtx :=
  ⟨fun c f => if c = ch ∧ f = frame then v else ctx.outs c f⟩

/-- The mono branch of `Out::process`:
`for frame in 0..nframes { output(0, frame, in1.read(frame)); output(1, frame, in1.read(frame)); }`. -/
def monoFrames (in1 : Nat → ℚ) : Nat → AudioCtx → Option AudioCtx
  | 0, ctx => some ctx
  | n + 1, ctx => do
    let ctx2 ← monoFrames in1 n ctx
    let v ← bufRead in1 n
    some ((ctx2.output 0 n v).output 1 n v)

/-- The stereo branch of `Out::process`:
`for frame in 0..nframes { output(0, frame, in1.read(frame)); output(1, frame, in2.read(frame)); }`. -/
def stereoFrames (in1 in2 : Nat → ℚ) : Nat → AudioCtx → Option AudioCtx
  | 0, ctx => some ctx
  | n + 1, ctx => do
    let ctx2 ← stereoFrames in1 in2 n ctx
    let v1 ← bufRead in1 n
    let v2 ← bufRead in2 n
    some ((ctx2.output 0 n v1).output 1 n v2)

/-- `Out::process`: `in1 = inputs[0]`; if the `mono` atom
(`at::Out::mono(atoms) = atoms[0]`) has `i() > 0` — per the node's own
doc string, "If enabled, ch1 will be sent to both output channels" —
`in1` is fanned out to physical channels 0 and 1, otherwise
`in2 = inputs[1]` and the two buffers go to channels 0 and 1; finally
`let last_val = in1.read(ctx.nframes() - 1)` (a `usize` subtraction)
goes to feedback slot 0 (`ctx_vals[0].set(last_val)`), returned here as
the second component.  `none` models a missing input/atom slot, an
out-of-bounds buffer read, or the `nframes() - 1` underflow. -/
def Out.process (atoms : List SAtom) (inputs : List (Nat → ℚ))
    (nframes : Nat) (ctx : AudioCtx) : Option (AudioCtx × ℚ) := do
  let in1 ← inputs[0]?
  let mono ← atoms[0]?
  let ctx2 ←
    if mono.i > 0 then
      monoFrames in1 nframes ctx
    else do
      let in2 ← inputs[1]?
      stereoFrames in1 in2 nframes ctx
  let last_val ← bufReadI in1 ((nframes : Int) - 1)
  some (ctx2, last_val)

theorem monoFrames_spec (in1 : Nat → ℚ) :
    ∀ (n : Nat) (ctx : AudioCtx), n ≤ MAX_BLOCK_SIZE →
      ∃ ctx2, monoFrames in1 n ctx = some ctx2 ∧
        ∀ f, f < n → ctx2.outs 0 f = in1 f ∧ ctx2.outs 1 f = in1 f := by
  intro n
  induction n with
  | zero =>
    intro ctx h
    exact ⟨ctx, rfl, fun f hf => absurd hf (Nat.not_lt_zero f)⟩
  | succ m ih =>
    intro ctx h
    obtain ⟨ctx2, hc2, hprev⟩ := ih ctx (by omega)
    have hr : bufRead in1 m = some (in1 m) := by
      unfold bufRead
      rw [if_pos (by omega)]
    refine ⟨(ctx2.output 0 m (in1 m)).output 1 m (in1 m), ?_, ?_⟩
    · simp [monoFrames, hc2, hr]
    · intro f hf
      by_cases hfm : f = m
      · subst hfm
        simp [AudioCtx.output]
      · have hfm2 : f < m := by omega
        simp only [AudioCtx.output]
        simp [hfm]
        exact hprev f hfm2

theorem stereoFrames_spec (in1 in2 : Nat → ℚ) :
    ∀ (n : Nat) (ctx : AudioCtx), n ≤ MAX_BLOCK_SIZE →
      ∃ ctx2, stereoFrames in1 in2 n ctx = some ctx2 ∧
        ∀ f, f < n → ctx2.outs 0 f = in1 f ∧ ctx2.outs 1 f = in2 f := by
  intro n
  induction n with
  | zero =>
    intro ctx h
    exact ⟨ctx, rfl, fun f hf => absurd hf (Nat.not_lt_zero f)⟩
  | succ m ih =>
    intro ctx h
    obtain ⟨ctx2, hc2, hprev⟩ := ih ctx (by omega)
    have hr1 : bufRead in1 m = some (in1 m) := by
      unfold bufRead
      rw [if_pos (by omega)]
    have hr2 : bufRead in2 m = some (in2 m) := by
      unfold bufRead
      rw [if_pos (by omega)]
    refine ⟨(ctx2.output 0 m (in1 m)).output 1 m (in2 m), ?_, ?_⟩
    · simp [stereoFrames, hc2, hr1, hr2]
    · intro f hf
      by_cases hfm : f = m
      · subst hfm
        simp [AudioCtx.output]
      · have hfm2 : f < m := by omega
        simp only [AudioCtx.output]
        simp [hfm]
        exact hprev f hfm2

theorem Out_process_run (a0 : SAtom) (arest : List SAtom)
    (in1 in2 : Nat → ℚ) (irest : List (Nat → ℚ)) (n : Nat) (ctx : AudioCtx)
    (h1 : 1 ≤ n) (h2 : n ≤ MAX_BLOCK_SIZE) :
    ∃ ctx2, Out.process (a0 :: arest) (in1 :: in2 :: irest) n ctx
        = some (ctx2, in1 (n - 1)) ∧
      ∀ f, f < n →
        ctx2.outs 0 f = in1 f ∧
        ctx2.outs 1 f = (if a0.i > 0 then in1 f else in2 f) := by
  have hmeter : bufReadI in1 ((n : Int) - 1) = some (in1 (n - 1)) := by
    have hB : (MAX_BLOCK_SIZE : Int) = 128 := rfl
    have hBn : MAX_BLOCK_SIZE = 128 := rfl
    rw [hBn] at h2
    unfold bufReadI
    rw [hB]
    rw [if_pos (by omega)]
    have harg : ((n : Int) - 1).toNat = n - 1 := by omega
    rw [harg]
  by_cases hm : a0.i > 0
  · obtain ⟨ctx2, hc2, hout⟩ := monoFrames_spec in1 n ctx h2
    refine ⟨ctx2, ?_, ?_⟩
    · simp [Out.process, hm, hc2, hmeter]
    · intro f hf
      rw [if_pos hm]
      exact hout f hf
  · obtain ⟨ctx2, hc2, hout⟩ := stereoFrames_spec in1 in2 n ctx h2
    refine ⟨ctx2, ?_, ?_⟩
    · simp [Out.process, hm, hc2, hmeter]
    · intro f hf
      rw [if_neg hm]
      exact hout f hf

/-- C6: for `1 ≤ nframes ≤ MAX_BLOCK_SIZE`, when the `mono` fan-out is
enabled (the `mono` atom's setting value is positive — per the node's
doc string "If enabled, ch1 will be sent to both output channels"),
every frame of physical channels 0 and 1 receives the `ch1` input
value; when the stereo setting is selected (value `≤ 0`, including the
default `setting(0)`), channel 0 receives `ch1` and channel 1 receives
`ch2`, so the two channel outputs differ exactly where the two input
buffers differ. -/
theorem C6_out_mono_stereo (m : Int) (in1 in2 : Nat → ℚ)
    (n : Nat) (ctx : AudioCtx) (h1 : 1 ≤ n) (h2 : n ≤ MAX_BLOCK_SIZE) :
    (m > 0 → ∃ ctx2 fb,
      Out.process [SAtom.Setting m] [in1, in2] n ctx = some (ctx2, fb) ∧
      ∀ f, f < n → ctx2.outs 0 f = in1 f ∧ ctx2.outs 1 f = in1 f) ∧
    (m ≤ 0 → ∃ ctx2 fb,
      Out.process [SAtom.Setting m] [in1, in2] n ctx = some (ctx2, fb) ∧
      ∀ f, f < n → ctx2.outs 0 f = in1 f ∧ ctx2.outs 1 f = in2 f ∧
        (ctx2.outs 0 f ≠ ctx2.outs 1 f ↔ in1 f ≠ in2 f)) := by
  obtain ⟨ctx2, hrun, hout⟩ :=
    Out_process_run (SAtom.Setting m) [] in1 in2 [] n ctx h1 h2
  constructor
  · intro hm
    have hmi : (SAtom.Setting m).i > 0 := hm
    refine ⟨ctx2, in1 (n - 1), hrun, ?_⟩
    intro f hf
    obtain ⟨ho0, ho1⟩ := hout f hf
    rw [if_pos hmi] at ho1
    exact ⟨ho0, ho1⟩
  · intro hm
    have hmi : ¬ (SAtom.Setting m).i > 0 := by
      show ¬ m > 0
      omega
    refine ⟨ctx2, in1 (n - 1), hrun, ?_⟩
    intro f hf
    obtain ⟨ho0, ho1⟩ := hout f hf
    rw [if_neg hmi] at ho1
    refine ⟨ho0, ho1, ?_⟩
    rw [ho0, ho1]

/-- Witness for C6: two frames with constant inputs 3 and 4; the mono
setting (value 1) duplicates input 3 on both channels, the stereo
setting (value 0) routes 3 and 4 to channels 0 and 1. -/
theorem C6_out_mono_stereo_witness :
    (∃ ctx2 fb, Out.process [SAtom.Setting 1]
        [fun _ => (3 : ℚ), fun _ => (4 : ℚ)] 2 ⟨fun _ _ => 0⟩
        = some (ctx2, fb) ∧
      ∀ f, f < 2 → ctx2.outs 0 f = 3 ∧ ctx2.outs 1 f = 3) ∧
    (∃ ctx2 fb, Out.process [SAtom.Setting 0]
        [fun _ => (3 : ℚ), fun _ => (4 : ℚ)] 2 ⟨fun _ _ => 0⟩
        = some (ctx2, fb) ∧
      ∀ f, f < 2 → ctx2.outs 0 f = 3 ∧ ctx2.outs 1 f = 4 ∧
        (ctx2.outs 0 f ≠ ctx2.outs 1 f ↔ (3 : ℚ) ≠ 4)) :=
  ⟨(C6_out_mono_stereo 1 (fun _ => 3) (fun _ => 4) 2 ⟨fun _ _ => 0⟩
      (by decide) (by decide)).1 (by decide),
   (C6_out_mono_stereo 0 (fun _ => 3) (fun _ => 4) 2 ⟨fun _ _ => 0⟩
      (by decide) (by decide)).2 (by decide)⟩

/-- C9: `Out::process` reads `ch1` at `nframes() - 1` unconditionally
for the metering write.  Under `1 ≤ nframes ≤ MAX_BLOCK_SIZE` every
buffer access is in bounds and feedback slot 0 receives `ch1`'s
last-frame value; with `nframes = 0` the `usize` index `nframes() - 1`
underflows (out-of-bounds access, modelled as `none`), so
`nframes ≥ 1` is a required precondition. -/
theorem C9_out_metering (a0 : SAtom) (in1 in2 : Nat → ℚ) (n : Nat)
    (ctx : AudioCtx) (h1 : 1 ≤ n) (h2 : n ≤ MAX_BLOCK_SIZE) :
    Out.process [a0] [in1, in2] 0 ctx = none ∧
    ∃ ctx2, Out.process [a0] [in1, in2] n ctx = some (ctx2, in1 (n - 1)) := by
  constructor
  · by_cases hm : a0.i > 0 <;>
      simp [Out.process, hm, monoFrames, stereoFrames, bufReadI]
  · obtain ⟨ctx2, hrun, hout⟩ := Out_process_run a0 [] in1 in2 [] n ctx h1 h2
    exact ⟨ctx2, hrun⟩

/-- Witness for C9 at `nframes = 1` with `ch1` constantly 3: the
`nframes = 0` call fails, the `nframes = 1` call succeeds and meters 3. -/
theorem C9_out_metering_witness :
    Out.process [SAtom.Setting 1] [fun _ => (3 : ℚ), fun _ => (4 : ℚ)] 0
      ⟨fun _ _ => 0⟩ = none ∧
    ∃ ctx2, Out.process [SAtom.Setting 1]
        [fun _ => (3 : ℚ), fun _ => (4 : ℚ)] 1 ⟨fun _ _ => 0⟩
        = some (ctx2, 3) :=
  C9_out_metering (SAtom.Setting 1) (fun _ => 3) (fun _ => 4) 1
    ⟨fun _ _ => 0⟩ (by decide) (by decide)

end HexoSynth
